import Mathlib

/-!
Verification of the CostPulse cost-allocation, anomaly-detection and
forecasting engine.  The definitions below are a shallow embedding of
the Python services in costpulse/services/cost_allocation.py,
costpulse/services/anomaly_detection.py,
costpulse/services/forecast_service.py and
costpulse/processors/cost_calculator.py.  Floating-point numbers are
modelled by exact rationals (where only field arithmetic occurs) or by
real numbers (where square roots occur); Python dictionaries are
modelled by insertion-ordered association lists; a raised exception is
modelled by the error case of Except.
-/

namespace CostPulse

/-! ## Data model (costpulse/models) -/

/-- A cost record row (costpulse/models/cost_record.py).  Only the fields
read by the allocation engine are carried. -/
structure CostRecord where
  workspace_id : String
  sku_name : String
  dbu_count : ℚ
  dbu_rate : ℚ
  cost_usd : ℚ
  cluster_name : Option String
  user_email : Option String
  tags : List (String × String)

/-- An abstract regular-expression pattern: either a pattern that compiles,
carrying its (unanchored, re.search style) match predicate, or a pattern
whose compilation fails. -/
inductive Pattern where
  | ok (find : String → Bool)
  | bad

/-- Model of Python re.search p s: raises re.error when the pattern fails to
compile, otherwise reports whether the pattern matches somewhere in s. -/
def reSearch : Pattern → String → Except Unit Bool
  | .ok find, s => .ok (find s)
  | .bad, _ => .error ()

/-- The conditions mapping of an allocation rule.  The Python code stores a
JSON object and reads kind-specific keys with defaults; the structure carries
every key the engine reads, with the same defaults conditions.get uses. -/
structure RuleConditions where
  tag_key : String := ""
  tag_value : String := ""
  emails : List String := []
  workspace_ids : List String := []
  cluster_name_patterns : List Pattern := []
  sku_names : List String := []

/-- An allocation rule row (costpulse/models/allocation.py). -/
structure AllocationRule where
  team_id : String
  rule_type : String
  conditions : RuleConditions
  priority : Int
  is_active : Bool

/-- A team row (costpulse/models/team.py): its display name and the
tag-pattern fallback mapping. -/
structure Team where
  name : String
  tag_patterns : List (String × Pattern)

/-- A team-member row: an email mapped to its team id. -/
structure TeamMember where
  email : String
  team_id : String

/-! ## Cost calculator (costpulse/processors/cost_calculator.py) -/

/-- DBU_RATES from costpulse/core/constants.py, as exact rationals. -/
def DBU_RATES : List (String × ℚ) :=
  [("STANDARD_JOBS_COMPUTE", 15/100),
   ("PREMIUM_JOBS_COMPUTE", 30/100),
   ("JOBS_COMPUTE", 15/100),
   ("JOBS_COMPUTE_PHOTON", 30/100),
   ("STANDARD_ALL_PURPOSE_COMPUTE", 40/100),
   ("PREMIUM_ALL_PURPOSE_COMPUTE", 55/100),
   ("ALL_PURPOSE_COMPUTE", 55/100),
   ("ALL_PURPOSE_COMPUTE_PHOTON", 110/100),
   ("STANDARD_SQL_COMPUTE", 22/100),
   ("PREMIUM_SQL_COMPUTE", 22/100),
   ("SQL_COMPUTE", 22/100),
   ("SQL_COMPUTE_SERVERLESS", 70/100),
   ("STANDARD_DLT_CORE_COMPUTE", 20/100),
   ("PREMIUM_DLT_CORE_COMPUTE", 20/100),
   ("STANDARD_DLT_PRO_COMPUTE", 25/100),
   ("PREMIUM_DLT_PRO_COMPUTE", 25/100),
   ("STANDARD_DLT_ADVANCED_COMPUTE", 36/100),
   ("PREMIUM_DLT_ADVANCED_COMPUTE", 36/100),
   ("MODEL_SERVING", 7/100),
   ("FOUNDATION_MODEL_SERVING", 7/100),
   ("SERVERLESS_REAL_TIME_INFERENCE", 7/100),
   ("SERVERLESS_SQL_COMPUTE", 70/100)]

/-- Helper for strContains: the first list occurs at the head of the second. -/
def charsStartWith : List Char → List Char → Bool
  | [], _ => true
  | _ :: _, [] => false
  | a :: as, b :: bs => a == b && charsStartWith as bs

/-- Helper for strContains: the first list occurs somewhere in the second. -/
def charsContain (needle : List Char) : List Char → Bool
  | [] => charsStartWith needle []
  | b :: bs => charsStartWith needle (b :: bs) || charsContain needle bs

/-- Model of Python str.lower (character-wise lowercasing). -/
def strLower (s : String) : String := String.mk (s.data.map Char.toLower)

/-- Model of Python substring containment (the in operator on strings). -/
def strContains (hay needle : String) : Bool :=
  charsContain needle.toList hay.toList

/-- CostCalculator.calculate_dbu_cost.  rates is the calculator's rate table
(DBU_RATES merged with any custom overrides); Decimal arithmetic on decimal
literals is exact, hence the rational model. -/
def calculate_dbu_cost (rates : List (String × ℚ)) (sku_name : String)
    (dbu_count : ℚ) (photon_enabled : Bool) : ℚ :=
  let sku :=
    if photon_enabled && !(strContains sku_name "_PHOTON") then
      let photon_sku := sku_name ++ "_PHOTON"
      if (rates.lookup photon_sku).isSome then photon_sku else sku_name
    else sku_name
  ((rates.lookup sku).getD (15/100)) * dbu_count

/-! ## Cost allocation engine (costpulse/services/cost_allocation.py) -/

/-- CostAllocationService._rule_matches.  The error case models an uncaught
re.error escaping from re.search on a pattern that fails to compile. -/
def anyPatternMatches : List Pattern → String → Except Unit Bool
  | [], _ => .ok false
  | p :: ps, s => do
    let b ← reSearch p s
    if b then pure true else anyPatternMatches ps s

/-- CostAllocationService._rule_matches, the dispatch on rule_type. -/
def ruleMatches (record : CostRecord) (rule : AllocationRule) : Except Unit Bool :=
  let conditions := rule.conditions
  if rule.rule_type = "tag_match" then
    .ok (record.tags.lookup conditions.tag_key == some conditions.tag_value)
  else if rule.rule_type = "user_match" then
    .ok (match record.user_email with
      | none => false
      | some e => e != "" && (conditions.emails.map strLower).contains (strLower e))
  else if rule.rule_type = "workspace_match" then
    .ok (conditions.workspace_ids.contains record.workspace_id)
  else if rule.rule_type = "cluster_match" then
    match record.cluster_name with
    | none => .ok false
    | some name =>
      if name = "" then .ok false
      else anyPatternMatches conditions.cluster_name_patterns name
  else if rule.rule_type = "sku_match" then
    .ok (conditions.sku_names.contains record.sku_name)
  else .ok false

/-- CostAllocationService._tags_match: first team pattern whose regex matches
the corresponding tag value (empty string when the tag key is absent) wins. -/
def tagsMatch (record_tags : List (String × String)) :
    List (String × Pattern) → Except Unit Bool
  | [] => .ok false
  | (key, pattern) :: rest => do
    let value := (record_tags.lookup key).getD ""
    let b ← reSearch pattern value
    if b then pure true else tagsMatch record_tags rest

/-- The rule loop of CostAllocationService._match_record_to_team: first rule
that matches wins. -/
def firstMatchingRule (record : CostRecord) :
    List AllocationRule → Except Unit (Option AllocationRule)
  | [] => .ok none
  | r :: rs => do
    let b ← ruleMatches record r
    if b then pure (some r) else firstMatchingRule record rs

/-- The tag-fallback loop of _match_record_to_team over the teams mapping in
its iteration order: first team with non-empty tag_patterns that match. -/
def firstTagTeam (record : CostRecord) :
    List (String × Team) → Except Unit (Option String)
  | [] => .ok none
  | (tid, team) :: rest => do
    if team.tag_patterns.isEmpty then firstTagTeam record rest
    else
      let b ← tagsMatch record.tags team.tag_patterns
      if b then pure (some tid) else firstTagTeam record rest

/-- CostAllocationService._match_record_to_team: rule-based matching, then
case-insensitive user-email lookup, then team tag-pattern matching, then
none (the Unallocated bucket). -/
def matchRecordToTeam (record : CostRecord) (rules : List AllocationRule)
    (email_to_team : List (String × String)) (teams : List (String × Team)) :
    Except Unit (Option String) := do
  let firstRule ← firstMatchingRule record rules
  match firstRule with
  | some rule => pure (some rule.team_id)
  | none =>
    let emailTeam :=
      match record.user_email with
      | none => none
      | some e => if e = "" then none else email_to_team.lookup (strLower e)
    match emailTeam with
    | some tid => pure (some tid)
    | none =>
      if record.tags.isEmpty then pure none
      else firstTagTeam record teams

/-- The running per-team aggregate built by allocate_costs. -/
structure Alloc where
  total_cost : ℚ
  dbu_cost : ℚ
  compute_cost : ℚ
  records : ℕ
  by_sku : List (String × ℚ)
  by_workspace : List (String × ℚ)

/-- The zero aggregate allocate_costs creates for a newly seen team. -/
def emptyAlloc : Alloc := ⟨0, 0, 0, 0, [], []⟩

/-- Python dict[k] = dict.get(k, 0.0) + c: update the existing entry in
place, or append a new entry in insertion order. -/
def dictAdd : List (String × ℚ) → String → ℚ → List (String × ℚ)
  | [], k, c => [(k, c)]
  | kv :: rest, k, c =>
    if kv.1 = k then (kv.1, kv.2 + c) :: rest else kv :: dictAdd rest k c

/-- The per-record aggregate update performed inside the allocation loop. -/
def addRecordToAlloc (a : Alloc) (record : CostRecord) : Alloc :=
  { a with
    total_cost := a.total_cost + record.cost_usd
    dbu_cost := a.dbu_cost + record.dbu_count * record.dbu_rate
    records := a.records + 1
    by_sku := dictAdd a.by_sku record.sku_name record.cost_usd
    by_workspace := dictAdd a.by_workspace record.workspace_id record.cost_usd }

/-- Update the allocations dict for one matched record: create the zero
aggregate when the team is new (appended in insertion order), then add the
record to it. -/
def updateAllocations : List (String × Alloc) → String → CostRecord →
    List (String × Alloc)
  | [], tid, record => [(tid, addRecordToAlloc emptyAlloc record)]
  | (k, a) :: rest, tid, record =>
    if k = tid then (k, addRecordToAlloc a record) :: rest
    else (k, a) :: updateAllocations rest tid record

/-- The mutable state of the allocation loop. -/
structure AllocState where
  allocations : List (String × Alloc)
  unallocated : List CostRecord

/-- One iteration of the allocation loop of allocate_costs. -/
def allocStep (rules : List AllocationRule) (email_to_team : List (String × String))
    (teams : List (String × Team)) (st : AllocState) (record : CostRecord) :
    Except Unit AllocState := do
  let teamId ← matchRecordToTeam record rules email_to_team teams
  match teamId with
  | some tid => pure { st with allocations := updateAllocations st.allocations tid record }
  | none => pure { st with unallocated := st.unallocated ++ [record] }

/-- A persisted CostAllocation row (the session.add calls of allocate_costs);
the period columns, identical on every row of a run, are omitted. -/
structure CostAllocationRow where
  team_id : String
  total_cost : ℚ
  dbu_cost : ℚ
  compute_cost : ℚ
  breakdown_by_sku : List (String × ℚ)
  breakdown_by_workspace : List (String × ℚ)
  breakdown_record_count : ℕ
  allocation_method : String

/-- One entry of the summary list allocate_costs returns. -/
structure AllocationSummary where
  team_id : Option String
  team_name : String
  total_cost : ℚ
  dbu_cost : ℚ
  record_count : ℕ

/-- The ordering relation of the ORDER BY allocation_rules.priority clause. -/
def rulePriorityLe (a b : AllocationRule) : Prop := a.priority ≤ b.priority

instance : DecidableRel rulePriorityLe := fun a b => Int.decLe a.priority b.priority

instance : IsTotal AllocationRule rulePriorityLe :=
  ⟨fun a b => Int.le_total a.priority b.priority⟩

instance : IsTrans AllocationRule rulePriorityLe :=
  ⟨fun _ _ _ hab hbc => Int.le_trans hab hbc⟩

/-- The rule query of allocate_costs: active rules ordered by priority
ascending (ties in an arbitrary but stable order). -/
def sortRules (rules : List AllocationRule) : List AllocationRule :=
  (rules.filter (fun r => r.is_active)).insertionSort rulePriorityLe

/-- The email_to_team dict of allocate_costs: member emails lowercased,
later members overwriting earlier ones on the same email. -/
def buildEmailMap (members : List TeamMember) : List (String × String) :=
  members.foldl
    (fun m member =>
      if (m.lookup (strLower member.email)).isSome then
        m.map (fun kv =>
          if kv.1 = strLower member.email then (kv.1, member.team_id) else kv)
      else m ++ [(strLower member.email, member.team_id)])
    []

/-- CostAllocationService.allocate_costs.  The database reads are modelled by
the function arguments: the cost records of the period, the allocation-rule
table (the active filter and priority ordering are applied here, as the SQL
query does), the teams mapping in its iteration order, and the team-member
rows.  Returns the persisted CostAllocation rows and the returned summary
list; an uncaught exception is the error case. -/
def allocateCosts (records : List CostRecord) (rules : List AllocationRule)
    (teams : List (String × Team)) (members : List TeamMember) :
    Except Unit (List CostAllocationRow × List AllocationSummary) := do
  if records.isEmpty then return ([], [])
  let sortedRules := sortRules rules
  let email_to_team := buildEmailMap members
  let st ← records.foldlM (allocStep sortedRules email_to_team teams) ⟨[], []⟩
  let rows := st.allocations.map (fun p =>
    { team_id := p.1
      total_cost := p.2.total_cost
      dbu_cost := p.2.dbu_cost
      compute_cost := p.2.compute_cost
      breakdown_by_sku := p.2.by_sku
      breakdown_by_workspace := p.2.by_workspace
      breakdown_record_count := p.2.records
      allocation_method := "rule_based" : CostAllocationRow })
  let results := st.allocations.map (fun p =>
    { team_id := some p.1
      team_name := ((teams.lookup p.1).map Team.name).getD "Unknown"
      total_cost := p.2.total_cost
      dbu_cost := p.2.dbu_cost
      record_count := p.2.records : AllocationSummary })
  let finalResults :=
    if st.unallocated.isEmpty then results
    else results ++
      [{ team_id := none
         team_name := "Unallocated"
         total_cost := (st.unallocated.map CostRecord.cost_usd).sum
         dbu_cost := (st.unallocated.map (fun r => r.dbu_count * r.dbu_rate)).sum
         record_count := st.unallocated.length : AllocationSummary }]
  pure (rows, finalResults)


/-- The total cost held by an allocation-loop state: allocated totals plus
the cost of the unallocated records. -/
def stTotalCost (st : AllocState) : ℚ :=
  (st.allocations.map (fun p => p.2.total_cost)).sum +
    (st.unallocated.map CostRecord.cost_usd).sum

/-- The number of records held by an allocation-loop state. -/
def stRecordCount (st : AllocState) : ℕ :=
  (st.allocations.map (fun p => p.2.records)).sum + st.unallocated.length

/-- Whether a record falls through to the Unallocated bucket under the given
rule, email and team configuration. -/
def isUnmatched (rules : List AllocationRule) (em : List (String × String))
    (teams : List (String × Team)) (r : CostRecord) : Bool :=
  match matchRecordToTeam r rules em teams with
  | .ok none => true
  | _ => false

/-! ## Anomaly detection (costpulse/services/anomaly_detection.py) -/

/-- numpy.mean of a list (0/0 = 0 for the empty list in this model). -/
noncomputable def popMean (l : List ℝ) : ℝ := l.sum / l.length

/-- numpy.std of a list: the population standard deviation. -/
noncomputable def popStd (l : List ℝ) : ℝ :=
  Real.sqrt ((l.map (fun x => (x - popMean l) ^ 2)).sum / l.length)

/-- One anomaly dict emitted by _find_zscore_anomalies.  Dates are abstract
day identifiers; the date field holds dates[i]. -/
structure Anomaly where
  dimension : String
  date : ℕ
  value : ℝ
  expected : ℝ
  z_score : ℝ
  pct_change : ℝ
  severity : String
  direction : String

open Classical in
/-- The body of one iteration of the loop in
AnomalyDetectionService._find_zscore_anomalies: the trailing window
values[i-window:i], its mean and population std, the std=0 skip, the
Z-score against the sensitivity threshold, and the severity and direction
labels.  Returns the anomaly appended for index i, if any. -/
noncomputable def zscoreAnomalyAt (values : List ℝ) (dates : List ℕ)
    (dimension : String) (sensitivity : ℝ) (window : ℕ) (i : ℕ) :
    Option Anomaly :=
  let lo := i - window
  let window_data := (values.drop lo).take (i - lo)
  let mean := popMean window_data
  let std := popStd window_data
  if std = 0 then none
  else
    let z := (values.getD i 0 - mean) / std
    let pct := if mean > 0 then (values.getD i 0 - mean) / mean * 100 else 0
    if |z| > sensitivity then
      some { dimension := dimension, date := dates.getD i 0,
             value := values.getD i 0, expected := mean, z_score := z,
             pct_change := pct,
             severity := if |z| > 3 then "critical"
               else if |z| > 2.5 then "high" else "medium",
             direction := if z > 0 then "spike" else "drop" }
    else none

/-- AnomalyDetectionService._find_zscore_anomalies: rolling window of
min(7, len-1), looping i over range(window, len). -/
noncomputable def findZscoreAnomalies (values : List ℝ) (dates : List ℕ)
    (dimension : String) (sensitivity : ℝ) : List Anomaly :=
  let window := min 7 (values.length - 1)
  ((List.range values.length).drop window).filterMap
    (zscoreAnomalyAt values dates dimension sensitivity window)

/-! ## Forecasting (costpulse/services/forecast_service.py) -/

/-- One forecast point of _linear_forecast or _prophet_forecast: the date is
carried as the offset i in days past the last historical bucket; the
model_metrics slope/intercept/std_dev ride along as fields. -/
structure ForecastPoint where
  offset : ℕ
  predicted_cost : ℝ
  lower_bound : ℝ
  upper_bound : ℝ
  model : String
  slope : ℝ
  intercept : ℝ
  std_dev : ℝ

/-- The slope of numpy.polyfit(x, costs, 1), written as the closed-form
least-squares solution over x = 0, 1, ..., len-1 (mathematically equal to
the degree-1 least-squares fit polyfit computes). -/
noncomputable def fitSlope (costs : List ℝ) : ℝ :=
  let n : ℝ := costs.length
  let xs := (List.range costs.length).map (fun i => (i:ℝ))
  (n * (List.zipWith (fun x y => x * y) xs costs).sum - xs.sum * costs.sum) /
    (n * (xs.map (fun x => x ^ 2)).sum - xs.sum ^ 2)

/-- The intercept of numpy.polyfit(x, costs, 1), closed form. -/
noncomputable def fitIntercept (costs : List ℝ) : ℝ :=
  (costs.sum - fitSlope costs *
    (((List.range costs.length).map (fun i => (i:ℝ))).sum)) / (costs.length : ℝ)

/-- numpy.std of the residuals costs - polyval(coeffs, x) of the linear fit. -/
noncomputable def residStd (costs : List ℝ) : ℝ :=
  let xs := (List.range costs.length).map (fun i => (i:ℝ))
  popStd (List.zipWith (fun x y => y - (fitSlope costs * x + fitIntercept costs)) xs costs)

/-- ForecastService._linear_forecast: fit slope/intercept, residual std,
then for i in 1..horizon_days emit a point at future_x = len + i - 1 with a
1.96 * std margin, the prediction and the lower bound clamped at 0. -/
noncomputable def linearForecast (costs : List ℝ) (horizon_days : ℕ) :
    List ForecastPoint :=
  let slope := fitSlope costs
  let intercept := fitIntercept costs
  let std_dev := residStd costs
  let margin := 1.96 * std_dev
  (List.range horizon_days).map (fun j =>
    let i : ℕ := j + 1
    let future_x : ℝ := (costs.length : ℝ) + (i : ℝ) - 1
    let predicted_cost := max 0 (slope * future_x + intercept)
    { offset := i
      predicted_cost := predicted_cost
      lower_bound := max 0 (predicted_cost - margin)
      upper_bound := predicted_cost + margin
      model := "linear"
      slope := slope
      intercept := intercept
      std_dev := std_dev })

/-- ForecastService.generate_forecast.  The historical buckets fetched from
the store are an argument; the Prophet library call (an external dependency)
is modelled by its outcome primaryModel: a successful fit yields its points,
and any exception falls back to _linear_forecast.  Fewer than 14 buckets
short-circuit to the empty list before any model runs. -/
noncomputable def generateForecast (historical : List ℝ) (horizon_days : ℕ)
    (primaryModel : Except Unit (List ForecastPoint)) : List ForecastPoint :=
  if historical.length < 14 then []
  else
    match primaryModel with
    | .ok fs => fs
    | .error _ => linearForecast historical horizon_days

/-! ## Concrete inputs used by the claim theorems -/

/-- A record no rule, email or tag can match (empty tags, no email). -/
def recNoMatch : CostRecord := ⟨"ws1", "JOBS_COMPUTE", 2, 1/10, 5, none, none, []⟩

/-- A record carrying a user email that the member roster maps to team t1. -/
def recEmail : CostRecord := ⟨"ws1", "JOBS_COMPUTE", 2, 1/10, 5, none, some "A@X.com", []⟩

/-- A team whose display name is literally Unallocated. -/
def teamNamedUnallocated : Team := ⟨"Unallocated", []⟩

/-- A cluster_match rule whose single regex pattern fails to compile. -/
def badRegexRule : AllocationRule :=
  ⟨"t1", "cluster_match", { cluster_name_patterns := [.bad] }, 1, true⟩

/-- An active sku_match rule matching JOBS_COMPUTE records. -/
def skuRule : AllocationRule :=
  ⟨"t2", "sku_match", { sku_names := ["JOBS_COMPUTE"] }, 2, true⟩

/-- A record with a cluster name, so cluster_match rules reach re.search. -/
def recCluster : CostRecord :=
  ⟨"ws1", "JOBS_COMPUTE", 2, 1/10, 5, some "etl-cluster", none, []⟩

/-- An active rule with the numerically lowest priority, owned by alpha. -/
def ruleLowPrio : AllocationRule :=
  ⟨"alpha", "sku_match", { sku_names := ["JOBS_COMPUTE"] }, 1, true⟩

/-- An active rule with a higher priority value, owned by beta; it also
matches recNoMatch (by workspace). -/
def ruleHighPrio : AllocationRule :=
  ⟨"beta", "workspace_match", { workspace_ids := ["ws1"] }, 2, true⟩

/-- The allocation result of the single-unmatched-record run, used as the
concrete instantiation of the conservation theorem. -/
def conservationRes : List CostAllocationRow × List AllocationSummary :=
  ((allocateCosts [recNoMatch] [] [] []).toOption).getD ([], [])

/-- The allocation result of a run whose one record matches team t1 by
email, used as the concrete instantiation of the persisted-rows theorem. -/
def rowsShapeRes : List CostAllocationRow × List AllocationSummary :=
  ((allocateCosts [recEmail] [] [("t1", teamNamedUnallocated)]
      [⟨"a@x.com", "t1"⟩]).toOption).getD ([], [])

/-- The allocation result of the single-unmatched-record run, used as the
concrete instantiation of the summary-shape theorem. -/
def unallocShapeRes : List CostAllocationRow × List AllocationSummary :=
  ((allocateCosts [recNoMatch] [] [] []).toOption).getD ([], [])

/-- Seven stable daily costs followed by one extreme outlier. -/
def zscoreSeries : List ℝ := [100, 101, 99, 100.5, 99.5, 100.2, 100.8, 500]

/-- The 30-point historical series cost i = 1000 + 10 * i. -/
def forecastSeries : List ℝ := (List.range 30).map (fun i => 1000 + 10 * (i:ℝ))

/-! ## Helper lemmas -/

theorem updateAllocations_total_sum (m : List (String × Alloc)) (tid : String)
    (record : CostRecord) :
    ((updateAllocations m tid record).map (fun p => p.2.total_cost)).sum =
      (m.map (fun p => p.2.total_cost)).sum + record.cost_usd := by
  induction m with
  | nil => simp [updateAllocations, addRecordToAlloc, emptyAlloc]
  | cons kv rest ih =>
    obtain ⟨k, a⟩ := kv
    by_cases h : k = tid
    · simp [updateAllocations, h, addRecordToAlloc]; ring
    · simp [updateAllocations, h, ih]; ring

theorem updateAllocations_records_sum (m : List (String × Alloc)) (tid : String)
    (record : CostRecord) :
    ((updateAllocations m tid record).map (fun p => p.2.records)).sum =
      (m.map (fun p => p.2.records)).sum + 1 := by
  induction m with
  | nil => simp [updateAllocations, addRecordToAlloc, emptyAlloc]
  | cons kv rest ih =>
    obtain ⟨k, a⟩ := kv
    by_cases h : k = tid
    · simp [updateAllocations, h, addRecordToAlloc]; ring
    · simp [updateAllocations, h, ih]; ring

theorem allocStep_ok {rules : List AllocationRule} {em : List (String × String)}
    {teams : List (String × Team)} {st : AllocState} {record : CostRecord}
    {st' : AllocState} (h : allocStep rules em teams st record = .ok st') :
    (∃ tid, matchRecordToTeam record rules em teams = .ok (some tid) ∧
      st' = { st with allocations := updateAllocations st.allocations tid record }) ∨
    (matchRecordToTeam record rules em teams = .ok none ∧
      st' = { st with unallocated := st.unallocated ++ [record] }) := by
  unfold allocStep at h
  cases hm : matchRecordToTeam record rules em teams with
  | error e => rw [hm] at h; simp [Bind.bind, Except.bind] at h
  | ok o =>
    rw [hm] at h
    cases o with
    | none =>
      simp [Bind.bind, Except.bind, pure, Except.pure] at h
      exact Or.inr ⟨rfl, h.symm⟩
    | some tid =>
      simp [Bind.bind, Except.bind, pure, Except.pure] at h
      exact Or.inl ⟨tid, rfl, h.symm⟩

theorem foldlM_alloc_conservation (rules : List AllocationRule)
    (em : List (String × String)) (teams : List (String × Team)) :
    ∀ (records : List CostRecord) (st st' : AllocState),
    records.foldlM (allocStep rules em teams) st = .ok st' →
    stTotalCost st' = stTotalCost st + (records.map CostRecord.cost_usd).sum ∧
    stRecordCount st' = stRecordCount st + records.length := by
  intro records
  induction records with
  | nil =>
    intro st st' h
    simp only [List.foldlM_nil] at h
    cases h
    simp
  | cons r rs ih =>
    intro st st' h
    rw [List.foldlM_cons] at h
    cases hstep : allocStep rules em teams st r with
    | error e => rw [hstep] at h; simp [Bind.bind, Except.bind] at h
    | ok st1 =>
      rw [hstep] at h
      simp only [Bind.bind, Except.bind] at h
      obtain ⟨h1, h2⟩ := ih st1 st' h
      rcases allocStep_ok hstep with ⟨tid, _, rfl⟩ | ⟨_, rfl⟩
      · constructor
        · rw [h1]
          simp [stTotalCost, updateAllocations_total_sum]
          ring
        · rw [h2]
          simp [stRecordCount, updateAllocations_records_sum]
          ring
      · constructor
        · rw [h1]; simp [stTotalCost]; ring
        · rw [h2]; simp [stRecordCount]; ring

theorem firstMatchingRule_min (record : CostRecord) (r1 : AllocationRule) :
    ∀ (l : List AllocationRule), l.Sorted rulePriorityLe → r1 ∈ l →
    ruleMatches record r1 = .ok true →
    (∀ r ∈ l, ∃ b, ruleMatches record r = .ok b) →
    (∀ r ∈ l, ruleMatches record r = .ok true → r = r1 ∨ r1.priority < r.priority) →
    firstMatchingRule record l = .ok (some r1) := by
  intro l
  induction l with
  | nil => intro _ hm; cases hm
  | cons hd tl ih =>
    intro hs hm h1 hnoerr hmin
    obtain ⟨b, hb⟩ := hnoerr hd (List.mem_cons_self hd tl)
    rw [List.sorted_cons] at hs
    cases b with
    | true =>
      have : hd = r1 ∨ r1.priority < hd.priority :=
        hmin hd (List.mem_cons_self hd tl) hb
      cases this with
      | inl he =>
        subst he
        simp [firstMatchingRule, hb, Bind.bind, Except.bind, pure, Except.pure]
      | inr hlt =>
        have hr1tl : r1 ∈ tl := by
          cases hm with
          | head => exact absurd hlt (lt_irrefl _)
          | tail _ h => exact h
        have : hd.priority ≤ r1.priority := hs.1 r1 hr1tl
        exact absurd hlt (not_lt.mpr this)
    | false =>
      have hr1tl : r1 ∈ tl := by
        cases hm with
        | head => rw [h1] at hb; cases hb
        | tail _ h => exact h
      rw [firstMatchingRule]
      rw [hb]
      simp only [Bind.bind, Except.bind, Bool.false_eq_true, if_false]
      exact ih hs.2 hr1tl h1
        (fun r hr => hnoerr r (List.mem_cons_of_mem hd hr))
        (fun r hr => hmin r (List.mem_cons_of_mem hd hr))

theorem updateAllocations_keys (m : List (String × Alloc)) (tid : String)
    (record : CostRecord) :
    (updateAllocations m tid record).map Prod.fst =
      if tid ∈ m.map Prod.fst then m.map Prod.fst else m.map Prod.fst ++ [tid] := by
  induction m with
  | nil => simp [updateAllocations]
  | cons kv rest ih =>
    obtain ⟨k, a⟩ := kv
    by_cases h : k = tid
    · subst h
      simp [updateAllocations]
    · by_cases h2 : tid ∈ rest.map Prod.fst
      · simp [updateAllocations, h, ih, h2, Ne.symm h]
      · simp [updateAllocations, h, ih, h2, Ne.symm h]

theorem foldlM_alloc_unallocated (rules : List AllocationRule)
    (em : List (String × String)) (teams : List (String × Team)) :
    ∀ (records : List CostRecord) (st st' : AllocState),
    records.foldlM (allocStep rules em teams) st = .ok st' →
    st'.unallocated = st.unallocated ++ records.filter (isUnmatched rules em teams) := by
  intro records
  induction records with
  | nil =>
    intro st st' h
    simp only [List.foldlM_nil] at h
    cases h
    simp
  | cons r rs ih =>
    intro st st' h
    rw [List.foldlM_cons] at h
    cases hstep : allocStep rules em teams st r with
    | error e => rw [hstep] at h; simp [Bind.bind, Except.bind] at h
    | ok st1 =>
      rw [hstep] at h
      simp only [Bind.bind, Except.bind] at h
      have h1 := ih st1 st' h
      rcases allocStep_ok hstep with ⟨tid, hm, rfl⟩ | ⟨hm, rfl⟩
      · have hf : isUnmatched rules em teams r = false := by
          simp [isUnmatched, hm]
        simp [h1, hf]
      · have ht : isUnmatched rules em teams r = true := by
          simp [isUnmatched, hm]
        simp [h1, ht]

theorem foldlM_alloc_keys (rules : List AllocationRule)
    (em : List (String × String)) (teams : List (String × Team)) :
    ∀ (records : List CostRecord) (st st' : AllocState),
    records.foldlM (allocStep rules em teams) st = .ok st' →
    ((st.allocations.map Prod.fst).Nodup → (st'.allocations.map Prod.fst).Nodup) ∧
    ∀ tid, tid ∈ st'.allocations.map Prod.fst ↔
      (tid ∈ st.allocations.map Prod.fst ∨
        ∃ r ∈ records, matchRecordToTeam r rules em teams = .ok (some tid)) := by
  intro records
  induction records with
  | nil =>
    intro st st' h
    simp only [List.foldlM_nil] at h
    cases h
    simp
  | cons r rs ih =>
    intro st st' h
    rw [List.foldlM_cons] at h
    cases hstep : allocStep rules em teams st r with
    | error e => rw [hstep] at h; simp [Bind.bind, Except.bind] at h
    | ok st1 =>
      rw [hstep] at h
      simp only [Bind.bind, Except.bind] at h
      obtain ⟨ihn, ihm⟩ := ih st1 st' h
      rcases allocStep_ok hstep with ⟨tid0, hm, rfl⟩ | ⟨hm, rfl⟩
      · constructor
        · intro hnd
          apply ihn
          rw [updateAllocations_keys]
          by_cases hin : tid0 ∈ st.allocations.map Prod.fst
          · simpa [hin] using hnd
          · simp [hin, hnd, List.nodup_append]
        · intro tid
          rw [ihm tid, updateAllocations_keys]
          by_cases hin : tid0 ∈ st.allocations.map Prod.fst
          · simp only [hin, if_true]
            constructor
            · rintro (hl | ⟨rr, hrr, hmr⟩)
              · exact Or.inl hl
              · exact Or.inr ⟨rr, List.mem_cons_of_mem r hrr, hmr⟩
            · rintro (hl | ⟨rr, hrr, hmr⟩)
              · exact Or.inl hl
              · rcases List.mem_cons.mp hrr with rfl | hrr2
                · rw [hm] at hmr
                  cases hmr
                  exact Or.inl hin
                · exact Or.inr ⟨rr, hrr2, hmr⟩
          · simp only [hin, if_false, List.mem_append, List.mem_singleton]
            constructor
            · rintro ((hl | rfl) | ⟨rr, hrr, hmr⟩)
              · exact Or.inl hl
              · exact Or.inr ⟨r, List.mem_cons_self r rs, hm⟩
              · exact Or.inr ⟨rr, List.mem_cons_of_mem r hrr, hmr⟩
            · rintro (hl | ⟨rr, hrr, hmr⟩)
              · exact Or.inl (Or.inl hl)
              · rcases List.mem_cons.mp hrr with rfl | hrr2
                · rw [hm] at hmr
                  cases hmr
                  exact Or.inl (Or.inr rfl)
                · exact Or.inr ⟨rr, hrr2, hmr⟩
      · constructor
        · exact ihn
        · intro tid
          rw [ihm tid]
          constructor
          · rintro (hl | ⟨rr, hrr, hmr⟩)
            · exact Or.inl hl
            · exact Or.inr ⟨rr, List.mem_cons_of_mem r hrr, hmr⟩
          · rintro (hl | ⟨rr, hrr, hmr⟩)
            · exact Or.inl hl
            · rcases List.mem_cons.mp hrr with rfl | hrr2
              · rw [hm] at hmr
                cases hmr
              · exact Or.inr ⟨rr, hrr2, hmr⟩

theorem popStd_const (l : List ℝ) (c : ℝ) (hconst : ∀ x ∈ l, x = c) :
    popStd l = 0 := by
  have hzero : (l.map (fun x => (x - popMean l) ^ 2)).sum = 0 := by
    rcases eq_or_ne l [] with rfl | hne
    · simp
    · have hlen : (l.length : ℝ) ≠ 0 := by
        have := List.length_pos.mpr hne
        positivity
      have hmean : popMean l = c := by
        unfold popMean
        rw [List.sum_eq_card_nsmul l c hconst, nsmul_eq_mul]
        field_simp
      apply List.sum_eq_zero
      intro y hy
      rw [List.mem_map] at hy
      obtain ⟨x, hx, rfl⟩ := hy
      rw [hconst x hx, hmean]
      ring
  unfold popStd
  rw [hzero]
  simp

theorem popStd_nonneg (l : List ℝ) : 0 ≤ popStd l := Real.sqrt_nonneg _

theorem residStd_nonneg (costs : List ℝ) : 0 ≤ residStd costs := by
  unfold residStd
  exact popStd_nonneg _

theorem zscoreAnomalyAt_critical_spike (values : List ℝ) (dates : List ℕ)
    (dimension : String) (sensitivity : ℝ) (window i : ℕ)
    (hstd : popStd ((values.drop (i - window)).take (i - (i - window))) ≠ 0)
    (hz : 3 < (values.getD i 0 -
        popMean ((values.drop (i - window)).take (i - (i - window)))) /
        popStd ((values.drop (i - window)).take (i - (i - window))))
    (hsens : sensitivity < 3) :
    ∃ a, zscoreAnomalyAt values dates dimension sensitivity window i = some a ∧
      a.date = dates.getD i 0 ∧ a.severity = "critical" ∧
      a.direction = "spike" := by
  have hzpos : 0 < (values.getD i 0 -
      popMean ((values.drop (i - window)).take (i - (i - window)))) /
      popStd ((values.drop (i - window)).take (i - (i - window))) :=
    lt_trans (by norm_num) hz
  have habs : |(values.getD i 0 -
      popMean ((values.drop (i - window)).take (i - (i - window)))) /
      popStd ((values.drop (i - window)).take (i - (i - window)))| =
      (values.getD i 0 -
      popMean ((values.drop (i - window)).take (i - (i - window)))) /
      popStd ((values.drop (i - window)).take (i - (i - window))) :=
    abs_of_pos hzpos
  simp only [zscoreAnomalyAt]
  rw [if_neg hstd, if_pos (by rw [habs]; exact lt_trans hsens hz)]
  refine ⟨_, rfl, rfl, ?_, ?_⟩
  · show (if _ > (3:ℝ) then "critical" else _) = "critical"
    rw [if_pos (by rw [habs]; exact hz)]
  · show (if _ > (0:ℝ) then "spike" else "drop") = "spike"
    rw [if_pos hzpos]

theorem linearForecast_bounds (costs : List ℝ) (horizon : ℕ) (p : ForecastPoint)
    (hp : p ∈ linearForecast costs horizon) :
    p.lower_bound ≤ p.predicted_cost ∧ p.predicted_cost ≤ p.upper_bound ∧
    0 ≤ p.lower_bound ∧ 0 ≤ p.predicted_cost := by
  simp only [linearForecast, List.mem_map] at hp
  obtain ⟨j, _, rfl⟩ := hp
  have hmargin : 0 ≤ 1.96 * residStd costs := by
    have := residStd_nonneg costs
    nlinarith
  refine ⟨?_, ?_, ?_, ?_⟩
  · exact max_le (le_max_left _ _) (le_trans (sub_le_self _ hmargin) (le_refl _))
  · exact le_add_of_nonneg_right hmargin
  · exact le_max_left _ _
  · exact le_max_left _ _

theorem forecastSeries_lit : forecastSeries =
    [1000, 1010, 1020, 1030, 1040, 1050, 1060, 1070, 1080, 1090,
     1100, 1110, 1120, 1130, 1140, 1150, 1160, 1170, 1180, 1190,
     1200, 1210, 1220, 1230, 1240, 1250, 1260, 1270, 1280, 1290] := by
  have h30 : List.range 30 = [0, 1, 2, 3, 4, 5, 6, 7, 8, 9, 10, 11, 12, 13, 14,
      15, 16, 17, 18, 19, 20, 21, 22, 23, 24, 25, 26, 27, 28, 29] := rfl
  unfold forecastSeries
  rw [h30]
  norm_num [List.map_cons]

theorem fitSlope_forecastSeries : fitSlope forecastSeries = 10 := by
  have h30 : List.range 30 = [0, 1, 2, 3, 4, 5, 6, 7, 8, 9, 10, 11, 12, 13, 14,
      15, 16, 17, 18, 19, 20, 21, 22, 23, 24, 25, 26, 27, 28, 29] := rfl
  unfold fitSlope
  rw [forecastSeries_lit]
  norm_num [h30, List.map_cons, List.zipWith_cons_cons, List.sum_cons]

theorem fitIntercept_forecastSeries : fitIntercept forecastSeries = 1000 := by
  have h30 : List.range 30 = [0, 1, 2, 3, 4, 5, 6, 7, 8, 9, 10, 11, 12, 13, 14,
      15, 16, 17, 18, 19, 20, 21, 22, 23, 24, 25, 26, 27, 28, 29] := rfl
  unfold fitIntercept
  rw [fitSlope_forecastSeries, forecastSeries_lit]
  norm_num [h30, List.map_cons, List.sum_cons]

theorem residStd_forecastSeries : residStd forecastSeries = 0 := by
  have h30 : List.range 30 = [0, 1, 2, 3, 4, 5, 6, 7, 8, 9, 10, 11, 12, 13, 14,
      15, 16, 17, 18, 19, 20, 21, 22, 23, 24, 25, 26, 27, 28, 29] := rfl
  unfold residStd
  apply popStd_const _ 0
  intro x hx
  rw [fitSlope_forecastSeries, fitIntercept_forecastSeries, forecastSeries_lit] at hx
  norm_num [h30, List.map_cons, List.zipWith_cons_cons] at hx
  exact hx

theorem linearForecast_forecastSeries_preds :
    (linearForecast forecastSeries 7).map ForecastPoint.predicted_cost =
    [1300, 1310, 1320, 1330, 1340, 1350, 1360] := by
  have h7 : List.range 7 = [0, 1, 2, 3, 4, 5, 6] := rfl
  have hlen : forecastSeries.length = 30 := by rw [forecastSeries_lit]; rfl
  unfold linearForecast
  rw [fitSlope_forecastSeries, fitIntercept_forecastSeries,
    residStd_forecastSeries, hlen, h7]
  norm_num [List.map_cons, max_def]

/-! ## Claim theorems -/

/-- Claim C1 (allocation conservation): whenever allocate_costs completes,
the sum of total_cost over the returned summaries, the Unallocated summary
included, equals the sum of cost_usd over the fetched records exactly, and
the record counts sum to the number of records. -/
theorem allocation_conservation (records : List CostRecord)
    (rules : List AllocationRule) (teams : List (String × Team))
    (members : List TeamMember)
    (res : List CostAllocationRow × List AllocationSummary)
    (h : allocateCosts records rules teams members = .ok res) :
    (res.2.map AllocationSummary.total_cost).sum =
      (records.map CostRecord.cost_usd).sum ∧
    (res.2.map AllocationSummary.record_count).sum = records.length := by
  unfold allocateCosts at h
  by_cases hrec : records.isEmpty
  · rw [List.isEmpty_iff] at hrec
    subst hrec
    simp at h
    cases h
    simp
  · simp only [hrec, Bool.false_eq_true, if_false] at h
    cases hfold : records.foldlM
        (allocStep (sortRules rules) (buildEmailMap members) teams) ⟨[], []⟩ with
    | error e => rw [hfold] at h; simp [Bind.bind, Except.bind, pure, Except.pure] at h
    | ok st =>
      rw [hfold] at h
      simp only [Bind.bind, Except.bind, pure, Except.pure, Except.ok.injEq] at h
      obtain ⟨hc, hn⟩ := foldlM_alloc_conservation _ _ _ records ⟨[], []⟩ st hfold
      simp [stTotalCost, stRecordCount] at hc hn
      subst h
      by_cases hu : st.unallocated.isEmpty
      · rw [List.isEmpty_iff] at hu
        simp [hu] at hc hn
        constructor
        · simpa [hu, List.map_map, Function.comp_def] using hc
        · simpa [hu, List.map_map, Function.comp_def] using hn
      · constructor
        · simp [hu, List.map_map, Function.comp_def]
          linarith [hc]
        · simp [hu, List.map_map, Function.comp_def]
          omega

/-- Witness for allocation_conservation, applied to the run over the single
record recNoMatch with no rules, teams or members. -/
theorem allocation_conservation_witness :
    (conservationRes.2.map AllocationSummary.total_cost).sum =
      ([recNoMatch].map CostRecord.cost_usd).sum ∧
    (conservationRes.2.map AllocationSummary.record_count).sum =
      [recNoMatch].length :=
  allocation_conservation [recNoMatch] [] [] [] conservationRes rfl

/-- Claim C2 (attribution order and priority determinism): when an active
rule r1 matches the record, no rule evaluation raises, and every other
active matching rule has a strictly larger priority value, then
_match_record_to_team on the priority-sorted active rules attributes the
record to r1's team - regardless of the order the rules were supplied in,
and without consulting the email or tag fallbacks. -/
theorem rule_priority_determinism (record : CostRecord)
    (rules : List AllocationRule) (r1 : AllocationRule)
    (em : List (String × String)) (teams : List (String × Team))
    (hmem : r1 ∈ rules) (hact : r1.is_active = true)
    (hmatch : ruleMatches record r1 = .ok true)
    (hnoerr : ∀ r ∈ rules, ∃ b, ruleMatches record r = .ok b)
    (hmin : ∀ r ∈ rules, r.is_active = true → ruleMatches record r = .ok true →
      r = r1 ∨ r1.priority < r.priority) :
    matchRecordToTeam record (sortRules rules) em teams = .ok (some r1.team_id) := by
  have hperm := List.perm_insertionSort rulePriorityLe
    (rules.filter (fun r => r.is_active))
  have hs : (sortRules rules).Sorted rulePriorityLe :=
    List.sorted_insertionSort rulePriorityLe (rules.filter (fun r => r.is_active))
  have hmem' : r1 ∈ sortRules rules := by
    unfold sortRules
    exact hperm.mem_iff.mpr (List.mem_filter.mpr ⟨hmem, hact⟩)
  have hsub : ∀ r ∈ sortRules rules, r ∈ rules ∧ r.is_active = true := by
    intro r hr
    unfold sortRules at hr
    have h2 := List.mem_filter.mp (hperm.mem_iff.mp hr)
    exact ⟨h2.1, h2.2⟩
  have hfirst : firstMatchingRule record (sortRules rules) = .ok (some r1) :=
    firstMatchingRule_min record r1 (sortRules rules) hs hmem' hmatch
      (fun r hr => hnoerr r (hsub r hr).1)
      (fun r hr hm => hmin r (hsub r hr).1 (hsub r hr).2 hm)
  unfold matchRecordToTeam
  rw [hfirst]
  simp [Bind.bind, Except.bind, pure, Except.pure]

/-- Witness for rule_priority_determinism: both ruleHighPrio and ruleLowPrio
match recNoMatch, the rules are supplied with the higher priority value
first, and the team of ruleLowPrio (priority 1) wins. -/
theorem rule_priority_determinism_witness :
    matchRecordToTeam recNoMatch (sortRules [ruleHighPrio, ruleLowPrio]) [] [] =
      .ok (some "alpha") :=
  rule_priority_determinism recNoMatch [ruleHighPrio, ruleLowPrio] ruleLowPrio [] []
    (List.mem_cons_of_mem _ (List.mem_cons_self _ _)) rfl rfl
    (by
      intro r hr
      rcases List.mem_cons.mp hr with rfl | hr
      · exact ⟨true, rfl⟩
      · rcases List.mem_cons.mp hr with rfl | hr
        · exact ⟨true, rfl⟩
        · cases hr)
    (by
      intro r hr hact hm
      rcases List.mem_cons.mp hr with rfl | hr
      · exact Or.inr (by decide)
      · rcases List.mem_cons.mp hr with rfl | hr
        · exact Or.inl rfl
        · cases hr)

/-- Claim C3 (regex fault isolation - behaviour at the failing input): a
cluster_match rule whose regex fails to compile is NOT skipped: the
uncaught re.error aborts the entire allocation run, even though the later
rule skuRule matches the record, so no results are produced for the
remaining rules and records. -/
theorem bad_regex_aborts_run :
    allocateCosts [recCluster] [badRegexRule, skuRule] [] [] = .error () ∧
    ruleMatches recCluster skuRule = .ok true :=
  ⟨rfl, rfl⟩

/-- Counterexample to claim C4 as stated: a run in which one record matches
no team persists NO CostAllocation row at all (first component empty),
although at least one record went to the Unallocated bucket, contradicting
the claimed synthetic Unallocated row. -/
theorem unallocated_row_not_persisted_cex :
    (allocateCosts [recNoMatch] [] [] []).map Prod.fst = .ok [] ∧
    matchRecordToTeam recNoMatch (sortRules []) (buildEmailMap []) [] = .ok none :=
  ⟨rfl, rfl⟩

/-- Claim C4 as amended: exactly one CostAllocation row is persisted per
team with at least one attributed record (team ids are distinct, and a team
id appears among the rows exactly when some record is attributed to it); no
row is ever persisted for the Unallocated bucket, which appears only in the
returned summary list. -/
theorem persisted_rows_per_matched_team (records : List CostRecord)
    (rules : List AllocationRule) (teams : List (String × Team))
    (members : List TeamMember)
    (res : List CostAllocationRow × List AllocationSummary)
    (h : allocateCosts records rules teams members = .ok res) :
    (res.1.map CostAllocationRow.team_id).Nodup ∧
    ∀ tid, tid ∈ res.1.map CostAllocationRow.team_id ↔
      ∃ r ∈ records,
        matchRecordToTeam r (sortRules rules) (buildEmailMap members) teams =
          .ok (some tid) := by
  unfold allocateCosts at h
  by_cases hrec : records.isEmpty
  · rw [List.isEmpty_iff] at hrec
    subst hrec
    simp at h
    cases h
    simp
  · simp only [hrec, Bool.false_eq_true, if_false] at h
    cases hfold : records.foldlM
        (allocStep (sortRules rules) (buildEmailMap members) teams) ⟨[], []⟩ with
    | error e => rw [hfold] at h; simp [Bind.bind, Except.bind, pure, Except.pure] at h
    | ok st =>
      rw [hfold] at h
      simp only [Bind.bind, Except.bind, pure, Except.pure, Except.ok.injEq] at h
      obtain ⟨hnd, hiff⟩ := foldlM_alloc_keys _ _ _ records ⟨[], []⟩ st hfold
      subst h
      have hkeys : ∀ tid, tid ∈ st.allocations.map Prod.fst ↔
          ∃ r ∈ records,
            matchRecordToTeam r (sortRules rules) (buildEmailMap members) teams =
              .ok (some tid) := by
        intro tid
        rw [hiff tid]
        simp
      constructor
      · simpa [List.map_map, Function.comp_def] using hnd (by simp)
      · intro tid
        rw [← hkeys tid]
        simp [List.map_map, Function.comp_def]

/-- Witness for persisted_rows_per_matched_team, applied to a run whose one
record is attributed to team t1 through the member roster. -/
theorem persisted_rows_per_matched_team_witness :
    (rowsShapeRes.1.map CostAllocationRow.team_id).Nodup ∧
    ∀ tid, tid ∈ rowsShapeRes.1.map CostAllocationRow.team_id ↔
      ∃ r ∈ [recEmail],
        matchRecordToTeam r (sortRules []) (buildEmailMap [⟨"a@x.com", "t1"⟩])
          [("t1", teamNamedUnallocated)] = .ok (some tid) :=
  persisted_rows_per_matched_team [recEmail] [] [("t1", teamNamedUnallocated)]
    [⟨"a@x.com", "t1"⟩] rowsShapeRes rfl

/-- Claim C5 (Z-score threshold boundary): on the series 100, 101, 99,
100.5, 99.5, 100.2, 100.8, 500 with sensitivity 2.0, detection emits
exactly one anomaly, at the outlier index 7, with severity critical and
direction spike. -/
theorem zscore_boundary_single_critical_spike :
    (findZscoreAnomalies zscoreSeries (List.range 8) "daily_total" 2).map
      (fun a => (a.date, a.severity, a.direction)) = [(7, "critical", "spike")] := by
  have hwd : ((zscoreSeries.drop (7 - 7)).take (7 - (7 - 7))) =
      [100, 101, 99, 100.5, 99.5, 100.2, 100.8] := rfl
  have hmean : popMean [(100:ℝ), 101, 99, 100.5, 99.5, 100.2, 100.8] = 701/7 := by
    unfold popMean
    norm_num [List.sum_cons]
  have harg : ((([(100:ℝ), 101, 99, 100.5, 99.5, 100.2, 100.8]).map
      (fun x => (x - popMean [(100:ℝ), 101, 99, 100.5, 99.5, 100.2, 100.8]) ^ 2)).sum /
      (([(100:ℝ), 101, 99, 100.5, 99.5, 100.2, 100.8]).length : ℝ)) = 7441/17150 := by
    rw [hmean]
    norm_num [List.sum_cons]
  have hstd : popStd [(100:ℝ), 101, 99, 100.5, 99.5, 100.2, 100.8] =
      Real.sqrt (7441/17150) := by
    unfold popStd
    rw [harg]
  have hS : (0:ℝ) < Real.sqrt (7441/17150) :=
    Real.sqrt_pos.mpr (by norm_num)
  have hSlt : Real.sqrt (7441/17150) < 933/7 :=
    (Real.sqrt_lt' (by norm_num)).mpr (by norm_num)
  have hz : 3 < ((zscoreSeries.getD 7 0) -
      popMean ((zscoreSeries.drop (7 - 7)).take (7 - (7 - 7)))) /
      popStd ((zscoreSeries.drop (7 - 7)).take (7 - (7 - 7))) := by
    rw [hwd, hstd, hmean]
    have h500 : zscoreSeries.getD 7 0 = 500 := rfl
    rw [h500]
    rw [lt_div_iff hS]
    nlinarith [hSlt, hS]
  have hstdne : popStd ((zscoreSeries.drop (7 - 7)).take (7 - (7 - 7))) ≠ 0 := by
    rw [hwd, hstd]
    exact ne_of_gt hS
  obtain ⟨a, ha, hd, hsev, hdir⟩ :=
    zscoreAnomalyAt_critical_spike zscoreSeries (List.range 8) "daily_total" 2 7 7
      hstdne hz (by norm_num)
  have hrange : findZscoreAnomalies zscoreSeries (List.range 8) "daily_total" 2 =
      List.filterMap (zscoreAnomalyAt zscoreSeries (List.range 8) "daily_total" 2 7)
        [7] := rfl
  rw [hrange, List.filterMap_cons, ha]
  simp [hd, hsev, hdir]

/-- Claim C6 (zero-variance safety): on a perfectly constant series of at
least 8 values, every index is skipped because the trailing window's
standard deviation is exactly zero, so no anomaly is emitted and the
Z-score division never runs with a zero divisor. -/
theorem zero_variance_no_anomalies (values : List ℝ) (c : ℝ) (dates : List ℕ)
    (dimension : String) (sensitivity : ℝ)
    (hconst : ∀ x ∈ values, x = c) (hlen : 8 ≤ values.length) :
    findZscoreAnomalies values dates dimension sensitivity = [] := by
  unfold findZscoreAnomalies
  apply List.filterMap_eq_nil_iff.mpr
  intro i _
  unfold zscoreAnomalyAt
  have hstd : popStd ((values.drop (i - min 7 (values.length - 1))).take
      (i - (i - min 7 (values.length - 1)))) = 0 := by
    apply popStd_const _ c
    intro x hx
    exact hconst x (List.mem_of_mem_drop (List.mem_of_mem_take hx))
  simp only [hstd, if_pos]

/-- Witness for zero_variance_no_anomalies on a constant series of 8 values
of 100. -/
theorem zero_variance_no_anomalies_witness :
    findZscoreAnomalies (List.replicate 8 (100:ℝ)) (List.range 8)
      "daily_total" 2 = [] :=
  zero_variance_no_anomalies (List.replicate 8 (100:ℝ)) 100 (List.range 8)
    "daily_total" 2 (fun _ hx => List.eq_of_mem_replicate hx) (by simp)

/-- Claim C7 (insufficient-history forecasting): with fewer than 14
historical buckets generate_forecast returns the empty list, whatever the
horizon and whatever the primary model would have done - no error is
raised. -/
theorem insufficient_history_empty_forecast (historical : List ℝ)
    (horizon_days : ℕ) (primaryModel : Except Unit (List ForecastPoint))
    (h : historical.length < 14) :
    generateForecast historical horizon_days primaryModel = [] := by
  unfold generateForecast
  rw [if_pos h]

/-- Witness for insufficient_history_empty_forecast on 13 buckets with a
failing primary model. -/
theorem insufficient_history_empty_forecast_witness :
    generateForecast (List.replicate 13 (5:ℝ)) 30 (.error ()) = [] :=
  insufficient_history_empty_forecast (List.replicate 13 (5:ℝ)) 30 (.error ())
    (by simp)

/-- Claim C8 (linear fallback forecast shape): on the series
cost i = 1000 + 10 * i of 30 points the 7-day linear forecast is strictly
increasing and all positive, and on every input series each forecast point
satisfies lower_bound <= predicted_cost <= upper_bound with lower_bound and
predicted_cost clamped at a minimum of 0. -/
theorem linear_forecast_shape :
    (List.Pairwise (fun a b => a < b)
      ((linearForecast forecastSeries 7).map ForecastPoint.predicted_cost) ∧
     ∀ p ∈ linearForecast forecastSeries 7, 0 < p.predicted_cost) ∧
    ∀ (costs : List ℝ) (horizon : ℕ) (p : ForecastPoint),
      p ∈ linearForecast costs horizon →
      p.lower_bound ≤ p.predicted_cost ∧ p.predicted_cost ≤ p.upper_bound ∧
      0 ≤ p.lower_bound ∧ 0 ≤ p.predicted_cost := by
  refine ⟨⟨?_, ?_⟩, fun costs horizon p hp => linearForecast_bounds costs horizon p hp⟩
  · rw [linearForecast_forecastSeries_preds]
    norm_num [List.pairwise_cons]
  · intro p hp
    have hmem : p.predicted_cost ∈
        (linearForecast forecastSeries 7).map ForecastPoint.predicted_cost :=
      List.mem_map_of_mem _ hp
    rw [linearForecast_forecastSeries_preds] at hmem
    simp only [List.mem_cons, List.mem_singleton, List.not_mem_nil, or_false] at hmem
    rcases hmem with h|h|h|h|h|h|h <;> rw [h] <;> norm_num

/-- Witness for linear_forecast_shape: its universally quantified bound part
applied to the one point of the linear forecast over the series 0, 0. -/
theorem linear_forecast_shape_witness :
    (⟨1, 0, 0, 0, "linear", 0, 0, 0⟩ : ForecastPoint).lower_bound ≤
      (⟨1, 0, 0, 0, "linear", 0, 0, 0⟩ : ForecastPoint).predicted_cost ∧
    (⟨1, 0, 0, 0, "linear", 0, 0, 0⟩ : ForecastPoint).predicted_cost ≤
      (⟨1, 0, 0, 0, "linear", 0, 0, 0⟩ : ForecastPoint).upper_bound ∧
    0 ≤ (⟨1, 0, 0, 0, "linear", 0, 0, 0⟩ : ForecastPoint).lower_bound ∧
    0 ≤ (⟨1, 0, 0, 0, "linear", 0, 0, 0⟩ : ForecastPoint).predicted_cost := by
  have h2 : List.range 2 = [0, 1] := rfl
  have h1 : List.range 1 = [0] := rfl
  have hs : fitSlope [0, 0] = 0 := by
    unfold fitSlope
    norm_num [h2, List.zipWith_cons_cons, List.map_cons, List.sum_cons]
  have hi : fitIntercept [0, 0] = 0 := by
    unfold fitIntercept
    rw [hs]
    norm_num [h2, List.map_cons, List.sum_cons]
  have hr : residStd [0, 0] = 0 := by
    unfold residStd
    rw [hs, hi]
    apply popStd_const _ 0
    intro x hx
    norm_num [h2, List.zipWith_cons_cons, List.map_cons] at hx
    exact hx
  have hlf : linearForecast [0, 0] 1 = [⟨1, 0, 0, 0, "linear", 0, 0, 0⟩] := by
    unfold linearForecast
    rw [hs, hi, hr, h1]
    norm_num [List.map_cons, max_def]
  exact linear_forecast_shape.2 [0, 0] 1 _ (by rw [hlf]; exact List.mem_singleton_self _)

/-- Claim C9 (DBU rate selection): calculate_dbu_cost on JOBS_COMPUTE with
100 DBUs yields exactly 15.00 without Photon and 30.00 with Photon (the
_PHOTON variant rate), and any SKU absent from the rate table (with no
_PHOTON variant present either) falls back to the default rate 0.15 with no
error. -/
theorem dbu_rate_selection :
    calculate_dbu_cost DBU_RATES "JOBS_COMPUTE" 100 false = 15 ∧
    calculate_dbu_cost DBU_RATES "JOBS_COMPUTE" 100 true = 30 ∧
    ∀ (sku : String) (count : ℚ) (photon : Bool),
      DBU_RATES.lookup sku = none →
      DBU_RATES.lookup (sku ++ "_PHOTON") = none →
      calculate_dbu_cost DBU_RATES sku count photon = (15/100) * count := by
  refine ⟨?_, ?_, ?_⟩
  · have h : calculate_dbu_cost DBU_RATES "JOBS_COMPUTE" 100 false =
        (15/100 : ℚ) * 100 := rfl
    rw [h]; norm_num
  · have h : calculate_dbu_cost DBU_RATES "JOBS_COMPUTE" 100 true =
        (30/100 : ℚ) * 100 := rfl
    rw [h]; norm_num
  · intro sku count photon h1 h2
    cases photon <;>
      by_cases hc : strContains sku "_PHOTON" <;>
        simp [calculate_dbu_cost, hc, h1, h2]

/-- Witness for dbu_rate_selection: the unknown-SKU branch applied to the
concrete SKU CUSTOM_SKU. -/
theorem dbu_rate_selection_witness :
    DBU_RATES.lookup "CUSTOM_SKU" = none ∧
    DBU_RATES.lookup ("CUSTOM_SKU" ++ "_PHOTON") = none ∧
    calculate_dbu_cost DBU_RATES "CUSTOM_SKU" 40 true = (15/100) * 40 :=
  ⟨rfl, rfl, dbu_rate_selection.2.2 "CUSTOM_SKU" 40 true rfl rfl⟩

/-- Counterexample to claim C10 as stated: with a team literally named
Unallocated the returned list holds two entries whose team_name is
Unallocated, and the first of them has a non-None team_id. -/
theorem summary_unallocated_name_cex :
    (allocateCosts [recEmail, recNoMatch] [] [("t1", teamNamedUnallocated)]
        [⟨"a@x.com", "t1"⟩]).map
      (fun p => p.2.map (fun s => (s.team_id.isSome, s.team_name))) =
    .ok [(true, "Unallocated"), (false, "Unallocated")] :=
  rfl

/-- Claim C10 as amended: the returned list is a block of per-team
summaries, each with a non-None team_id, followed by at most one synthetic
entry with team_id None and team_name Unallocated; the synthetic entry is
present exactly when at least one record matched no team, it is the last
element, and its record_count equals the number of unmatched records. -/
theorem summary_unallocated_shape (records : List CostRecord)
    (rules : List AllocationRule) (teams : List (String × Team))
    (members : List TeamMember)
    (res : List CostAllocationRow × List AllocationSummary)
    (h : allocateCosts records rules teams members = .ok res) :
    ∃ ts : List AllocationSummary,
      (∀ s ∈ ts, s.team_id.isSome = true) ∧
      ((res.2 = ts ∧
          records.filter
            (isUnmatched (sortRules rules) (buildEmailMap members) teams) = []) ∨
       (∃ u, res.2 = ts ++ [u] ∧ u.team_id = none ∧ u.team_name = "Unallocated" ∧
          u.record_count = (records.filter
            (isUnmatched (sortRules rules) (buildEmailMap members) teams)).length ∧
          (records.filter
            (isUnmatched (sortRules rules) (buildEmailMap members) teams)).length ≠ 0)) := by
  unfold allocateCosts at h
  by_cases hrec : records.isEmpty
  · rw [List.isEmpty_iff] at hrec
    subst hrec
    simp at h
    cases h
    exact ⟨[], by simp, Or.inl ⟨rfl, rfl⟩⟩
  · simp only [hrec, Bool.false_eq_true, if_false] at h
    cases hfold : records.foldlM
        (allocStep (sortRules rules) (buildEmailMap members) teams) ⟨[], []⟩ with
    | error e => rw [hfold] at h; simp [Bind.bind, Except.bind, pure, Except.pure] at h
    | ok st =>
      rw [hfold] at h
      simp only [Bind.bind, Except.bind, pure, Except.pure, Except.ok.injEq] at h
      have hun := foldlM_alloc_unallocated _ _ _ records ⟨[], []⟩ st hfold
      simp at hun
      subst h
      refine ⟨st.allocations.map (fun p =>
        ({ team_id := some p.1,
           team_name := ((teams.lookup p.1).map Team.name).getD "Unknown",
           total_cost := p.2.total_cost, dbu_cost := p.2.dbu_cost,
           record_count := p.2.records } : AllocationSummary)), ?_, ?_⟩
      · intro s hs
        rw [List.mem_map] at hs
        obtain ⟨p, _, rfl⟩ := hs
        rfl
      · by_cases hu : st.unallocated.isEmpty
        · rw [List.isEmpty_iff] at hu
          exact Or.inl ⟨by simp [hu], by rw [← hun, hu]⟩
        · rw [if_neg hu]
          refine Or.inr ⟨_, rfl, rfl, rfl, ?_, ?_⟩
          · show st.unallocated.length = _
            rw [hun]
          · rw [← hun]
            intro hlen
            rw [List.length_eq_zero] at hlen
            rw [hlen] at hu
            simp at hu

/-- Witness for summary_unallocated_shape, applied to the run over the
single unmatched record recNoMatch. -/
theorem summary_unallocated_shape_witness :
    ∃ ts : List AllocationSummary,
      (∀ s ∈ ts, s.team_id.isSome = true) ∧
      ((unallocShapeRes.2 = ts ∧
          [recNoMatch].filter
            (isUnmatched (sortRules []) (buildEmailMap []) []) = []) ∨
       (∃ u, unallocShapeRes.2 = ts ++ [u] ∧ u.team_id = none ∧
          u.team_name = "Unallocated" ∧
          u.record_count = ([recNoMatch].filter
            (isUnmatched (sortRules []) (buildEmailMap []) [])).length ∧
          ([recNoMatch].filter
            (isUnmatched (sortRules []) (buildEmailMap []) [])).length ≠ 0)) :=
  summary_unallocated_shape [recNoMatch] [] [] [] unallocShapeRes rfl

end CostPulse
